import Mathlib

/-!
# Verification of the ESG leaderboard scoring engine

A shallow embedding of the scoring and ranking pipeline of the repository's
`LeaderboardPlaceholder` component (the credibility+target variant, together
with `getNetZeroTargets` / `targetYearToScore` shared with `NetZeroChart`) and
of the `SECTOR_CONFIG` cohort configuration.

Numbers are modelled as rationals (`ℚ`).  JavaScript's stable `Array.sort`
with comparator `(a, b) => k(b) - k(a)` is modelled as the stable insertion
sort `List.insertionSort (fun a b => k b ≤ k a)`: both produce the unique
permutation that is sorted descending by `k` and keeps elements with equal
keys in input order.  `Math.round x` is `⌊x + 1/2⌋`.  Fields of the source
records that the scoring pipeline never reads (units, assurance notes,
action plans, source file) are omitted.
-/

namespace EsgHub

/-- One declared target of a company-year record (`EsgTarget` in the source;
the unused `pct_reduction` / `base_year` / `scope` fields are omitted). -/
structure EsgTarget where
  description : String
  target_year : Option ℤ
deriving DecidableEq

/-- A credibility assessment.  `credibility_score` is optional because the
source guards it with `?? 1`; the chart configuration declares its scale with
maximum 5, while `alignment` and `realism` are declared on a 1–3 scale. -/
structure Credibility where
  credibility_score : Option ℚ
  alignment : ℚ
  realism : ℚ
deriving DecidableEq

/-- One company-year disclosure record (`EsgEntry` in the source). -/
structure EsgEntry where
  company : String
  reporting_year : ℤ
  scope1 : Option ℚ
  scope2_market : Option ℚ
  credibility : Option Credibility
  targets : List EsgTarget
deriving DecidableEq

/-- One company of the statically imported dataset (`EsgCompany`). -/
structure EsgCompany where
  company : String
  years : List EsgEntry
deriving DecidableEq

/-- `SECTOR_CONFIG` from `src/config/sectors.ts`,
restricted to the fields the scoring engine reads (sector name and company
list; colors and line styles are presentation-only). Order is the object's
key insertion order. -/
def SECTOR_CONFIG : List (String × List String) :=
  [("Energy & Utilities", ["BP", "ENGIE", "SSE", "Shell"]),
   ("Technology", ["Amazon", "Intel"]),
   ("Consumer Goods", ["Coca-Cola", "Nestle"])]

/-- `Object.values(SECTOR_CONFIG).flatMap((cfg) => cfg.companies.map((c) => c))`:
the cohort, in configuration order. -/
def companiesList : List String :=
  (SECTOR_CONFIG.map Prod.snd).flatten

/-- `getCompanySector` from `src/config/sectors.ts`: the first sector whose
company list contains the company. -/
def getCompanySector (c : String) : Option String :=
  (SECTOR_CONFIG.find? (fun p => p.2.contains c)).map Prod.fst

/-! ## Net-zero target resolution (`getNetZeroTargets`, `targetYearToScore`) -/

/-- Boolean test that `p` is an initial segment of `l`. -/
def isPre (p l : List Char) : Bool :=
  match p, l with
  | [], _ => true
  | _ :: _, [] => false
  | a :: ps, b :: ls => a == b && isPre ps ls

/-- Boolean test that `p` occurs as a contiguous run inside `l`. -/
def containsSub (p : List Char) : List Char → Bool
  | [] => isPre p []
  | c :: cs => isPre p (c :: cs) || containsSub p cs

/-- The characters of `s`, lower-cased. -/
def lowerChars (s : String) : List Char :=
  s.data.map Char.toLower

/-- The test `/net[- ]zero/i.test(description)`: case-insensitively, the
description contains `"net"`, then exactly one of `'-'` or `' '`, then
`"zero"`. -/
def netZeroMatch (s : String) : Bool :=
  containsSub "net-zero".data (lowerChars s) ||
    containsSub "net zero".data (lowerChars s)

/-- Stable descending insertion sort by a key, the model of
`xs.sort((a, b) => key(b) - key(a))`. -/
def sortDescBy {α β : Type*} [LinearOrder β] (key : α → β) (l : List α) :
    List α :=
  List.insertionSort (fun a b => key b ≤ key a) l

/-- Stable ascending insertion sort by a key, the model of
`xs.sort((a, b) => key(a) - key(b))`. -/
def sortAscBy {α β : Type*} [LinearOrder β] (key : α → β) (l : List α) :
    List α :=
  List.insertionSort (fun a b => key a ≤ key b) l

/-- `company.years.flatMap((y) => y.targets ?? [])`. -/
def companyAllTargets (c : EsgCompany) : List EsgTarget :=
  (c.years.map EsgEntry.targets).flatten

/-- `nzTargets`: the targets whose description matches the net-zero test. -/
def companyNzTargets (c : EsgCompany) : List EsgTarget :=
  (companyAllTargets c).filter (fun t => netZeroMatch t.description)

/-- `withYear`: the matching targets that carry a target year. -/
def companyNzWithYear (c : EsgCompany) : List EsgTarget :=
  (companyNzTargets c).filter (fun t => t.target_year.isSome)

/-- The per-company body of `getNetZeroTargets`: sort the matching targets
with a year descending by `target_year ?? 0` (the comparator
`(a, b) => (b.target_year ?? 0) - (a.target_year ?? 0)`) and return the first
one's year; `null` when none remain. -/
def companyNetZero (c : EsgCompany) : Option ℤ :=
  match sortDescBy (fun t => t.target_year.getD 0) (companyNzWithYear c) with
  | [] => none
  | t :: _ => t.target_year

/-- `getNetZeroTargets()[company] ?? null`.  The source builds a record by
iterating over the dataset's companies, so a duplicated company name keeps
the last assignment; a company absent from the dataset reads as `null`. -/
def netZeroTarget (staticData : List EsgCompany) (name : String) : Option ℤ :=
  match (staticData.filter (fun c => c.company = name)).getLast? with
  | none => none
  | some c => companyNetZero c

/-- `targetYearToScore` from the source: the fixed step function. -/
def targetYearToScore (year : Option ℤ) : ℚ :=
  match year with
  | none => 0
  | some y => if y ≤ 2040 then 10 else if y ≤ 2045 then 15/2
      else if y ≤ 2050 then 5 else 5/2

/-! ## Per-company raw metrics -/

/-- `(e.scope1?.value ?? 0) + (e.scope2_market?.value ?? 0)`. -/
def entryTotal (e : EsgEntry) : ℚ :=
  e.scope1.getD 0 + e.scope2_market.getD 0

/-- `avgEmissions`: the reduce over all of the company's records (absent
scopes read as 0) divided by `entries.length || 1`. -/
def avgEmissionsOf (entries : List EsgEntry) : ℚ :=
  (entries.foldl (fun s e => s + e.scope1.getD 0 + e.scope2_market.getD 0) 0) /
    (if entries.length = 0 then 1 else (entries.length : ℚ))

/-- `pctChange`: sort the company's records ascending by reporting year,
take the totals of the first and the last record (0 for a missing record),
and return the percentage change when the first total is positive, else 0. -/
def pctChangeOf (entries : List EsgEntry) : ℚ :=
  let sorted := sortAscBy EsgEntry.reporting_year entries
  let firstTotal := match sorted.head? with
    | some e => entryTotal e
    | none => 0
  let lastTotal := match sorted.getLast? with
    | some e => entryTotal e
    | none => 0
  if 0 < firstTotal then (lastTotal - firstTotal) / firstTotal * 100 else 0

/-- `e.credibility!.credibility_score ?? 1`, evaluated on records already
filtered to have credibility data (the `none` branch is unreachable there). -/
def credScoreOf (e : EsgEntry) : ℚ :=
  match e.credibility with
  | some c => c.credibility_score.getD 1
  | none => 1

/-- `avgCredScore`: mean of `credibility_score ?? 1` over the records with
credibility data, 1 when there are none. -/
def avgCredScoreOf (entries : List EsgEntry) : ℚ :=
  let credEntries := entries.filter (fun e => e.credibility.isSome)
  if 0 < credEntries.length then
    (credEntries.foldl (fun s e => s + credScoreOf e) 0) / credEntries.length
  else 1

/-- `credibilityComponent = ((avgCredScore - 1) / 2) * 10`. -/
def credibilityComponentOf (entries : List EsgEntry) : ℚ :=
  (avgCredScoreOf entries - 1) / 2 * 10

/-- The `rawValues` element for one company. -/
structure RawValue where
  company : String
  sector : String
  avgEmissions : ℚ
  pctChange : ℚ
  credibilityComponent : ℚ
  targetYearComponent : ℚ
deriving DecidableEq

/-- The body of the `rawValues` map for one company: filter the input data
to the company's records and derive its raw metrics. -/
def rawValueFor (staticData : List EsgCompany) (data : List EsgEntry)
    (c : String) : RawValue :=
  let entries := data.filter (fun e => e.company = c)
  { company := c
    sector := (getCompanySector c).getD ""
    avgEmissions := avgEmissionsOf entries
    pctChange := pctChangeOf entries
    credibilityComponent := credibilityComponentOf entries
    targetYearComponent := targetYearToScore (netZeroTarget staticData c) }

/-- `rawValues`: one `RawValue` per configured company, in cohort order. -/
def rawValues (staticData : List EsgCompany) (data : List EsgEntry) :
    List RawValue :=
  companiesList.map (rawValueFor staticData data)

/-! ## Cohort normalization, composite score, classification, ranking -/

/-- `Math.min(...l)` over a nonempty list (the cohort is never empty; the
value at `[]` is irrelevant). -/
def listMin : List ℚ → ℚ
  | [] => 0
  | x :: xs => xs.foldl min x

/-- `Math.max(...l)` over a nonempty list. -/
def listMax : List ℚ → ℚ
  | [] => 0
  | x :: xs => xs.foldl max x

/-- `Math.round (x * 10) / 10`: round to one decimal place,
with `Math.round y = ⌊y + 1/2⌋`. -/
def roundTo1 (x : ℚ) : ℚ :=
  ((⌊x * 10 + 1/2⌋ : ℤ) : ℚ) / 10

/-- One row of the scored leaderboard (`CompanyScore` in the source). -/
structure CompanyScore where
  company : String
  sector : String
  emissionsScore : ℚ
  trendScore : ℚ
  targetScore : ℚ
  overallScore : ℚ
  recommendation : String
  hasPenalty : Bool
deriving DecidableEq

/-- The `scored` map of the source, keeping for each company both the
unrounded post-penalty overall score (first component, the local
`overallScore` variable) and the emitted row (second component). -/
def scoredPairs (staticData : List EsgCompany) (data : List EsgEntry) :
    List (ℚ × CompanyScore) :=
  let rvs := rawValues staticData data
  let allEmissions := rvs.map RawValue.avgEmissions
  let minEmissions := listMin allEmissions
  let maxEmissions := listMax allEmissions
  let emissionsRange :=
    if maxEmissions - minEmissions = 0 then 1 else maxEmissions - minEmissions
  let allChanges := rvs.map RawValue.pctChange
  let minChange := listMin allChanges
  let maxChange := listMax allChanges
  let changeRange := if maxChange - minChange = 0 then 1 else maxChange - minChange
  rvs.map (fun r =>
    let emissionsScore := (maxEmissions - r.avgEmissions) / emissionsRange * 10
    let trendScore := (maxChange - r.pctChange) / changeRange * 10
    let targetScore :=
      r.credibilityComponent * (1/2) + r.targetYearComponent * (1/2)
    let base := emissionsScore * (2/10) + trendScore * (5/10) + targetScore * (3/10)
    let hasPenalty := r.company == "Amazon"
    let overallScore := if hasPenalty then max 0 (base - 5/10) else base
    let recommendation :=
      if (5 : ℚ) ≤ overallScore then "Finance"
      else if (365 : ℚ)/100 ≤ overallScore then "Monitor" else "Avoid"
    (overallScore,
      { company := r.company
        sector := r.sector
        emissionsScore := roundTo1 emissionsScore
        trendScore := roundTo1 trendScore
        targetScore := roundTo1 targetScore
        overallScore := roundTo1 overallScore
        recommendation := recommendation
        hasPenalty := hasPenalty }))

/-- The emitted rows, in cohort order (before ranking). -/
def scoredRows (staticData : List EsgCompany) (data : List EsgEntry) :
    List CompanyScore :=
  (scoredPairs staticData data).map Prod.snd

/-- `scored.sort((a, b) => b.overallScore - a.overallScore)`: the ranked
leaderboard. -/
def rankedRows (staticData : List EsgCompany) (data : List EsgEntry) :
    List CompanyScore :=
  sortDescBy CompanyScore.overallScore (scoredRows staticData data)

/-! ## Generic facts about the stable sorts -/

section SortFacts

variable {α : Type*} {β : Type*} [LinearOrder β] (key : α → β)

theorem sortDescBy_perm (l : List α) : (sortDescBy key l).Perm l :=
  List.perm_insertionSort _ l

theorem sortDescBy_sorted (l : List α) :
    (sortDescBy key l).Sorted (fun a b => key b ≤ key a) := by
  haveI : IsTotal α (fun a b => key b ≤ key a) :=
    ⟨fun a b => le_total (key b) (key a)⟩
  haveI : IsTrans α (fun a b => key b ≤ key a) :=
    ⟨fun _ _ _ h1 h2 => le_trans h2 h1⟩
  exact List.sorted_insertionSort _ l

theorem sortAscBy_perm (l : List α) : (sortAscBy key l).Perm l :=
  List.perm_insertionSort _ l

theorem sortAscBy_sorted (l : List α) :
    (sortAscBy key l).Sorted (fun a b => key a ≤ key b) := by
  haveI : IsTotal α (fun a b => key a ≤ key b) :=
    ⟨fun a b => le_total (key a) (key b)⟩
  haveI : IsTrans α (fun a b => key a ≤ key b) :=
    ⟨fun _ _ _ h1 h2 => le_trans h1 h2⟩
  exact List.sorted_insertionSort _ l

/-- Inserting `x` into `l` with the descending comparison commutes with
filtering by an exact key value: `x` is placed before every strictly
smaller key, so the elements of key `v` keep their order (with `x` in
front exactly when its key is `v`). -/
theorem filter_orderedInsert_key (v : β) (x : α) (l : List α) :
    (List.orderedInsert (fun a b => key b ≤ key a) x l).filter
        (fun a => key a = v) =
      if key x = v then x :: l.filter (fun a => key a = v)
      else l.filter (fun a => key a = v) := by
  induction l with
  | nil => by_cases h : key x = v <;> simp [List.orderedInsert, h]
  | cons y ys ih =>
    have hunfold : List.orderedInsert (fun a b => key b ≤ key a) x (y :: ys) =
        if key y ≤ key x then x :: y :: ys
        else y :: List.orderedInsert (fun a b => key b ≤ key a) x ys := rfl
    by_cases hxy : key y ≤ key x
    · rw [hunfold, if_pos hxy]
      by_cases h : key x = v <;> simp [List.filter_cons, h]
    · rw [hunfold, if_neg hxy]
      have hlt : key x < key y := lt_of_not_le hxy
      by_cases h : key x = v
      · have hy : ¬ (key y = v) := by
          intro hyv
          exact absurd (h ▸ hyv ▸ hlt) (lt_irrefl _)
        simp [List.filter_cons, h, hy, ih]
      · by_cases hy : key y = v <;>
          simp [List.filter_cons, h, hy, ih]

/-- Stability of the descending sort: the sublist of entries whose key is any
fixed value `v` is unchanged by sorting. -/
theorem sortDescBy_filter_key (v : β) (l : List α) :
    (sortDescBy key l).filter (fun a => key a = v) =
      l.filter (fun a => key a = v) := by
  induction l with
  | nil => rfl
  | cons x xs ih =>
    have hstep : sortDescBy key (x :: xs) =
        List.orderedInsert (fun a b => key b ≤ key a) x (sortDescBy key xs) := rfl
    rw [hstep, filter_orderedInsert_key]
    by_cases h : key x = v <;> simp [h, List.filter_cons, ih]

/-- The head of the descending sort carries a maximal key. -/
theorem sortDescBy_head_max {l rest : List α} {x : α}
    (h : sortDescBy key l = x :: rest) :
    x ∈ l ∧ ∀ y ∈ l, key y ≤ key x := by
  have hperm := sortDescBy_perm key l
  have hsorted := sortDescBy_sorted key l
  rw [h] at hperm hsorted
  have hhead := (List.sorted_cons.mp hsorted).1
  refine ⟨hperm.mem_iff.mp (List.mem_cons_self x rest), fun y hy => ?_⟩
  rcases List.mem_cons.mp (hperm.mem_iff.mpr hy) with rfl | hmem
  · exact le_refl _
  · exact hhead y hmem

/-- In a list sorted ascending by key, every key is at most the last one. -/
theorem sorted_key_le_getLast {s : List α}
    (hs : s.Sorted (fun a b => key a ≤ key b)) (h : s ≠ []) :
    ∀ y ∈ s, key y ≤ key (s.getLast h) := by
  induction s with
  | nil => exact absurd rfl h
  | cons x t ih =>
    intro y hy
    cases t with
    | nil =>
      rcases List.mem_singleton.mp hy with rfl
      simp
    | cons z t' =>
      have htail : (z :: t') ≠ [] := List.cons_ne_nil z t'
      rw [List.getLast_cons htail]
      have hhead := (List.sorted_cons.mp hs).1
      rcases List.mem_cons.mp hy with rfl | hmem
      · exact hhead _ (List.getLast_mem htail)
      · exact ih (List.sorted_cons.mp hs).2 htail y hmem

/-- The head of the ascending sort carries a minimal key. -/
theorem sortAscBy_head_min {l rest : List α} {x : α}
    (h : sortAscBy key l = x :: rest) :
    x ∈ l ∧ ∀ y ∈ l, key x ≤ key y := by
  have hperm := sortAscBy_perm key l
  have hsorted := sortAscBy_sorted key l
  rw [h] at hperm hsorted
  have hhead := (List.sorted_cons.mp hsorted).1
  refine ⟨hperm.mem_iff.mp (List.mem_cons_self x rest), fun y hy => ?_⟩
  rcases List.mem_cons.mp (hperm.mem_iff.mpr hy) with rfl | hmem
  · exact le_refl _
  · exact hhead y hmem

end SortFacts

/-! ## Substring characterizations -/

theorem isPre_iff (p l : List Char) : isPre p l = true ↔ ∃ t, l = p ++ t := by
  induction p generalizing l with
  | nil => simp [isPre]
  | cons a ps ih =>
    cases l with
    | nil => simp [isPre]
    | cons b ls =>
      rw [isPre]
      simp only [Bool.and_eq_true, beq_iff_eq, ih, List.cons_append,
        List.cons.injEq]
      constructor
      · rintro ⟨rfl, t, rfl⟩
        exact ⟨t, rfl, rfl⟩
      · rintro ⟨t, rfl, rfl⟩
        exact ⟨rfl, t, rfl⟩

theorem containsSub_iff (p l : List Char) :
    containsSub p l = true ↔ ∃ l1 l2, l = l1 ++ p ++ l2 := by
  induction l with
  | nil =>
    rw [containsSub, isPre_iff]
    constructor
    · rintro ⟨t, ht⟩
      exact ⟨[], t, ht⟩
    · rintro ⟨l1, l2, h⟩
      rcases List.append_eq_nil.mp h.symm with ⟨h1, h2⟩
      rcases List.append_eq_nil.mp h1 with ⟨-, hp⟩
      exact ⟨l2, by simp [hp, h2]⟩
  | cons c cs ih =>
    rw [containsSub]
    simp only [Bool.or_eq_true, isPre_iff, ih]
    constructor
    · rintro (⟨t, ht⟩ | ⟨l1, l2, h⟩)
      · exact ⟨[], t, by simp [ht]⟩
      · exact ⟨c :: l1, l2, by simp [h]⟩
    · rintro ⟨l1, l2, h⟩
      cases l1 with
      | nil => exact Or.inl ⟨l2, by simpa using h⟩
      | cons d l1' =>
        rcases List.cons.injEq .. ▸ h with h'
        simp only [List.cons_append, List.cons.injEq] at h'
        exact Or.inr ⟨l1', l2, h'.2⟩

/-! ## Claim C5: the net-zero matcher -/

/-- Formalisation of claim C5's matcher, following the claim's words: "net"
followed by an OPTIONAL separator and then "zero", case-insensitively (so a
description containing "netzero" with no separator is also accepted). -/
def claimNetZeroMatch (s : String) : Bool :=
  containsSub "netzero".data (lowerChars s) ||
    containsSub "net-zero".data (lowerChars s) ||
    containsSub "net zero".data (lowerChars s)

/-- C5 counterexample: the description "NetZero by 2050" is recognized by the
claim's optional-separator matcher but not by the source's
`/net[- ]zero/i` test, which demands exactly one hyphen or space between
"net" and "zero". -/
theorem C5_counterexample :
    claimNetZeroMatch "NetZero by 2050" = true ∧
      netZeroMatch "NetZero by 2050" = false := by
  decide

/-- C5 (amended): a description is recognized as net-zero intent exactly when
its lower-cased character sequence contains the contiguous run "net-zero" or
"net zero" — a separator (hyphen or space) is required, and "netzero" with no
separator is not recognized in any casing. -/
theorem C5_netZeroMatch_characterization :
    (∀ s : String, netZeroMatch s = true ↔
      ((∃ l1 l2, lowerChars s = l1 ++ "net-zero".data ++ l2) ∨
       (∃ l1 l2, lowerChars s = l1 ++ "net zero".data ++ l2))) ∧
    netZeroMatch "netzero" = false ∧
    netZeroMatch "Net-Zero commitment" = true ∧
    netZeroMatch "reach NET ZERO" = true := by
  refine ⟨fun s => ?_, by decide, by decide, by decide⟩
  rw [netZeroMatch]
  simp [containsSub_iff]

/-! ## Claim C2: mean emissions -/

/-- Formalisation of claim C2's mean, following the claim's words: average of
scope totals over the records having at least one scope present; records with
both scopes absent are excluded from the denominator; 0 when no record has
scope data. -/
def claimMeanEmissions (entries : List EsgEntry) : ℚ :=
  let q := entries.filter (fun e => e.scope1.isSome || e.scope2_market.isSome)
  if q.length = 0 then 0 else (q.map entryTotal).sum / q.length

/-- A company with one record carrying scope data (total 100) and one record
with both scopes absent. -/
def entriesC2 : List EsgEntry :=
  [{ company := "BP", reporting_year := 2020, scope1 := some 100,
     scope2_market := none, credibility := none, targets := [] },
   { company := "BP", reporting_year := 2021, scope1 := none,
     scope2_market := none, credibility := none, targets := [] }]

/-- C2 counterexample: the claim's mean over `entriesC2` is 100 (one
qualifying record), but the source divides by the number of ALL records, so
the both-absent record is counted as zero and the result is 50. -/
theorem C2_counterexample :
    claimMeanEmissions entriesC2 = 100 ∧ avgEmissionsOf entriesC2 = 50 ∧
      (50 : ℚ) ≠ 100 := by
  refine ⟨?_, ?_, by norm_num⟩ <;>
    norm_num [claimMeanEmissions, entriesC2, avgEmissionsOf, entryTotal]

theorem foldl_scope_sum (entries : List EsgEntry) (a : ℚ) :
    entries.foldl (fun s e => s + e.scope1.getD 0 + e.scope2_market.getD 0) a =
      a + (entries.map entryTotal).sum := by
  induction entries generalizing a with
  | nil => simp
  | cons e es ih => simp [ih, entryTotal]; ring

/-- C2 (amended): `mean_emissions` is the sum of scope1+scope2 totals (absent
scopes read as 0) over ALL of the entity's records, divided by the number of
records; records with both scopes absent count as zero in the numerator and
are included in the denominator; an entity with no records at all gets 0. -/
theorem C2_avgEmissions_mean_over_all_records (entries : List EsgEntry) :
    avgEmissionsOf entries =
      if entries.length = 0 then 0
      else (entries.map entryTotal).sum / entries.length := by
  by_cases h : entries.length = 0
  · rcases List.length_eq_zero.mp h with rfl
    simp [avgEmissionsOf]
  · rw [avgEmissionsOf, if_neg h, if_neg h, foldl_scope_sum, zero_add]

/-! ## Claim C3: trend percentage -/

/-- Formalisation of claim C3's trend rule, following the claim's words:
qualifying records are those with at least one scope present; order them by
period; 0 when fewer than two qualify or the earliest qualifying total is 0,
else the percentage change from earliest to latest qualifying total. -/
def claimTrendPct (entries : List EsgEntry) : ℚ :=
  let q := entries.filter (fun e => e.scope1.isSome || e.scope2_market.isSome)
  match sortAscBy EsgEntry.reporting_year q with
  | [] => 0
  | [_] => 0
  | f :: rest =>
    match rest.getLast? with
    | some l =>
        if entryTotal f = 0 then 0
        else (entryTotal l - entryTotal f) / entryTotal f * 100
    | none => 0

/-- A company whose earliest record has no scope data, followed by two
records with totals 100 and 200. -/
def entriesC3 : List EsgEntry :=
  [{ company := "BP", reporting_year := 2020, scope1 := none,
     scope2_market := none, credibility := none, targets := [] },
   { company := "BP", reporting_year := 2021, scope1 := some 100,
     scope2_market := some 0, credibility := none, targets := [] },
   { company := "BP", reporting_year := 2022, scope1 := some 200,
     scope2_market := none, credibility := none, targets := [] }]

/-- C3 counterexample: the claim's rule skips the data-less 2020 record and
yields 100% (from 100 to 200), but the source takes the raw earliest record,
whose absent scopes read as total 0, and therefore returns 0. -/
theorem C3_counterexample :
    claimTrendPct entriesC3 = 100 ∧ pctChangeOf entriesC3 = 0 ∧
      (0 : ℚ) ≠ 100 := by
  refine ⟨?_, ?_, by norm_num⟩ <;>
    norm_num [claimTrendPct, entriesC3, pctChangeOf, entryTotal, sortAscBy,
      List.insertionSort, List.orderedInsert]

/-- C3 (amended): `trend_pct` is computed from the earliest and the latest of
ALL the entity's records ordered by period — including records with no scope
data, whose totals read as 0 — and equals 0 when the earliest record's total
is not positive (in particular when there are no records); otherwise it is
`(last_total - first_total) / first_total * 100`.  With a single record the
earliest and latest coincide and the result is 0 either way. -/
theorem C3_pctChange_first_last_of_all_records (entries : List EsgEntry)
    (h : entries ≠ []) :
    ∃ f ∈ entries, ∃ l ∈ entries,
      (∀ e ∈ entries, f.reporting_year ≤ e.reporting_year) ∧
      (∀ e ∈ entries, e.reporting_year ≤ l.reporting_year) ∧
      pctChangeOf entries =
        if 0 < entryTotal f
        then (entryTotal l - entryTotal f) / entryTotal f * 100 else 0 := by
  rcases hs : sortAscBy EsgEntry.reporting_year entries with _ | ⟨f, rest⟩
  · exfalso
    have := (sortAscBy_perm EsgEntry.reporting_year entries).length_eq
    rw [hs] at this
    exact h (List.length_eq_zero.mp this.symm)
  · have hperm := sortAscBy_perm EsgEntry.reporting_year entries
    have hsorted := sortAscBy_sorted EsgEntry.reporting_year entries
    rw [hs] at hperm hsorted
    have hne : f :: rest ≠ [] := List.cons_ne_nil f rest
    have hmin := sortAscBy_head_min EsgEntry.reporting_year hs
    refine ⟨f, hmin.1, (f :: rest).getLast hne,
      hperm.mem_iff.mp (List.getLast_mem hne), hmin.2, ?_, ?_⟩
    · intro e he
      exact sorted_key_le_getLast EsgEntry.reporting_year hsorted hne e
        (hperm.mem_iff.mpr he)
    · rw [pctChangeOf, hs]
      simp [List.getLast?_eq_getLast _ hne]

/-- C3 witness: the characterization applied to the concrete three-record
company. -/
theorem C3_pctChange_first_last_of_all_records_witness :
    ∃ f ∈ entriesC3, ∃ l ∈ entriesC3,
      (∀ e ∈ entriesC3, f.reporting_year ≤ e.reporting_year) ∧
      (∀ e ∈ entriesC3, e.reporting_year ≤ l.reporting_year) ∧
      pctChangeOf entriesC3 =
        if 0 < entryTotal f
        then (entryTotal l - entryTotal f) / entryTotal f * 100 else 0 :=
  C3_pctChange_first_last_of_all_records entriesC3 (by simp [entriesC3])

/-! ## Claim C4: declared target period is the maximum matching year -/

/-- The years of all net-zero-matching targets of a company (order as
encountered; used to state what "the maximum such period" means). -/
def netZeroYears (c : EsgCompany) : List ℤ :=
  (companyNzTargets c).filterMap EsgTarget.target_year

theorem filterMap_eq_filterMap_filter_isSome {α β : Type*} (f : α → Option β)
    (l : List α) :
    l.filterMap f = (l.filter (fun a => (f a).isSome)).filterMap f := by
  induction l with
  | nil => rfl
  | cons x xs ih =>
    rcases hx : f x with - | b <;>
      simp [List.filterMap_cons, List.filter_cons, hx, ih]

/-- C4: when at least one net-zero-matching target has a non-null period,
`companyNetZero` returns the maximum such period; when no match has a period
it returns `null`; and the fixed step function maps `null → 0`,
`≤ 2040 → 10`, `≤ 2045 → 7.5`, `≤ 2050 → 5` and everything later `→ 2.5`
(so the Scenario D years {2045, 2060} resolve to 2060 and score 2.5). -/
theorem C4_declared_target_is_max :
    (∀ c : EsgCompany, netZeroYears c = [] → companyNetZero c = none) ∧
    (∀ (c : EsgCompany) (m : ℤ), m ∈ netZeroYears c →
      (∀ y ∈ netZeroYears c, y ≤ m) → companyNetZero c = some m) ∧
    targetYearToScore none = 0 ∧
    (∀ y : ℤ, y ≤ 2040 → targetYearToScore (some y) = 10) ∧
    (∀ y : ℤ, 2040 < y → y ≤ 2045 → targetYearToScore (some y) = 15/2) ∧
    (∀ y : ℤ, 2045 < y → y ≤ 2050 → targetYearToScore (some y) = 5) ∧
    (∀ y : ℤ, 2050 < y → targetYearToScore (some y) = 5/2) := by
  have hyears : ∀ c : EsgCompany,
      netZeroYears c = (companyNzWithYear c).filterMap EsgTarget.target_year :=
    fun c => filterMap_eq_filterMap_filter_isSome EsgTarget.target_year _
  refine ⟨fun c hc => ?_, fun c m hm hmax => ?_, rfl, ?_, ?_, ?_, ?_⟩
  · rcases hwy : companyNzWithYear c with - | ⟨t, ts⟩
    · rw [companyNetZero, hwy]
      rfl
    · exfalso
      have ht : t ∈ companyNzWithYear c := hwy ▸ List.mem_cons_self t ts
      have hsome : t.target_year.isSome := by
        have := List.of_mem_filter ht
        simpa using this
      rcases Option.isSome_iff_exists.mp hsome with ⟨y, hy⟩
      have : y ∈ netZeroYears c := by
        rw [hyears c]
        exact List.mem_filterMap.mpr ⟨t, ht, hy⟩
      rw [hc] at this
      exact absurd this (List.not_mem_nil y)
  · rw [hyears c] at hm hmax
    rcases List.mem_filterMap.mp hm with ⟨tm, htm, htmy⟩
    rcases hs : sortDescBy (fun t => t.target_year.getD 0) (companyNzWithYear c)
      with - | ⟨t0, rest⟩
    · exfalso
      have := (sortDescBy_perm (fun t : EsgTarget => t.target_year.getD 0)
        (companyNzWithYear c)).length_eq
      rw [hs] at this
      rw [List.length_eq_zero.mp this.symm] at htm
      exact absurd htm (List.not_mem_nil tm)
    · have hmax0 := sortDescBy_head_max (fun t : EsgTarget => t.target_year.getD 0) hs
      have ht0 : t0 ∈ companyNzWithYear c := hmax0.1
      have hsome : t0.target_year.isSome := by
        have := List.of_mem_filter ht0
        simpa using this
      rcases Option.isSome_iff_exists.mp hsome with ⟨k, hk⟩
      have hkm : k ≤ m := by
        refine hmax k (List.mem_filterMap.mpr ⟨t0, ht0, hk⟩)
      have hmk : m ≤ k := by
        have := hmax0.2 tm htm
        simp only [htmy, hk, Option.getD_some] at this
        exact this
      rw [companyNetZero, hs]
      show t0.target_year = some m
      rw [hk, le_antisymm hkm hmk]
  · intro y hy
    simp [targetYearToScore, hy]
  · intro y hy1 hy2
    rw [targetYearToScore]
    rw [if_neg (by omega), if_pos hy2]
  · intro y hy1 hy2
    rw [targetYearToScore]
    rw [if_neg (by omega), if_neg (by omega), if_pos hy2]
  · intro y hy
    rw [targetYearToScore]
    rw [if_neg (by omega), if_neg (by omega), if_neg (by omega)]

/-- The Scenario D company: two net-zero targets, for 2045 and 2060. -/
def companyD : EsgCompany :=
  { company := "DemoCo",
    years := [{ company := "DemoCo", reporting_year := 2023, scope1 := none,
                scope2_market := none, credibility := none,
                targets := [{ description := "Net-zero by 2045",
                              target_year := some 2045 },
                            { description := "net zero across operations",
                              target_year := some 2060 }] }] }

/-- C4 witness: Scenario D — target years {2045, 2060} resolve to 2060, which
the step function maps to 2.5. -/
theorem C4_declared_target_is_max_witness :
    companyNetZero companyD = some 2060 ∧
      targetYearToScore (some 2060) = 5/2 := by
  have h := C4_declared_target_is_max
  exact ⟨h.2.1 companyD 2060 (by decide) (by decide),
    h.2.2.2.2.2.2 2060 (by decide)⟩

/-! ## Claim C7: penalty floor -/

/-- Modelled from the spec: the Composite Scorer's ordered penalty-rule list
of §4.3, absent as a list in the source, which instantiates exactly one rule
(the Amazon assurance penalty `overall = Math.max(0, overall - 0.5)`).  A
rule is a pair of the predicate's value on the entity and the adjustment;
applying one rule is `overall = max(0, overall - adjustment)` when the
predicate holds and a no-op otherwise. -/
def penaltyStep (o : ℚ) (rule : Bool × ℚ) : ℚ :=
  if rule.1 then max 0 (o - rule.2) else o

/-- Modelled from the spec: apply every penalty rule in list order. -/
def applyPenalties (o : ℚ) (rules : List (Bool × ℚ)) : ℚ :=
  rules.foldl penaltyStep o

/-- C7: starting from a non-negative overall, applying any sequence of
penalty rules in list order never produces a negative overall at any
intermediate point (the `scanl` trace) or at the end, regardless of penalty
magnitudes or ordering; and the source's single-penalty expression is the
one-rule instance of this scheme. -/
theorem C7_penalty_floor (o : ℚ) (rules : List (Bool × ℚ)) (h : 0 ≤ o) :
    (∀ v ∈ List.scanl penaltyStep o rules, 0 ≤ v) ∧
    0 ≤ applyPenalties o rules ∧
    (∀ (b : Bool) (x : ℚ),
      applyPenalties x [(b, 5/10)] = if b then max 0 (x - 5/10) else x) := by
  refine ⟨?_, ?_, fun b x => by cases b <;> simp [applyPenalties, penaltyStep]⟩
    <;> induction rules generalizing o
  · intro v hv
    rw [List.scanl] at hv
    rcases List.mem_singleton.mp hv with rfl
    exact h
  case cons r rs ih =>
    have hstep : 0 ≤ penaltyStep o r := by
      rcases r with ⟨b, adj⟩
      cases b
      · simpa [penaltyStep] using h
      · simp [penaltyStep]
    intro v hv
    rw [List.scanl] at hv
    rcases List.mem_cons.mp hv with rfl | hv'
    · exact h
    · exact ih _ hstep v hv'
  · simpa [applyPenalties] using h
  case cons r rs ih =>
    have hstep : 0 ≤ penaltyStep o r := by
      rcases r with ⟨b, adj⟩
      cases b
      · simpa [penaltyStep] using h
      · simp [penaltyStep]
    simpa [applyPenalties, List.foldl_cons] using ih _ hstep

/-- C7 witness: a non-negative start, an oversized penalty and a further rule
— the whole trace stays at or above 0. -/
theorem C7_penalty_floor_witness :
    (0 : ℚ) ≤ 10 ∧
    ((∀ v ∈ List.scanl penaltyStep 10 [(true, 3), (true, 100), (false, 5)],
        0 ≤ v) ∧
      0 ≤ applyPenalties 10 [(true, 3), (true, 100), (false, 5)] ∧
      (∀ (b : Bool) (x : ℚ),
        applyPenalties x [(b, 5/10)] = if b then max 0 (x - 5/10) else x)) :=
  ⟨by norm_num,
    C7_penalty_floor 10 [(true, 3), (true, 100), (false, 5)] (by norm_num)⟩

/-! ## Claim C1: zero-range cohorts -/

theorem foldl_max_const (v : ℚ) (xs : List ℚ) :
    ∀ a : ℚ, (∀ x ∈ xs, x = v) → a = v → xs.foldl max a = v := by
  induction xs with
  | nil => intro a _ ha; simpa using ha
  | cons x xs ih =>
    intro a hxs ha
    have hx : x = v := hxs x (List.mem_cons_self x xs)
    rw [List.foldl_cons]
    exact ih _ (fun y hy => hxs y (List.mem_cons_of_mem x hy))
      (by rw [hx, ha, max_self])

theorem foldl_min_const (v : ℚ) (xs : List ℚ) :
    ∀ a : ℚ, (∀ x ∈ xs, x = v) → a = v → xs.foldl min a = v := by
  induction xs with
  | nil => intro a _ ha; simpa using ha
  | cons x xs ih =>
    intro a hxs ha
    have hx : x = v := hxs x (List.mem_cons_self x xs)
    rw [List.foldl_cons]
    exact ih _ (fun y hy => hxs y (List.mem_cons_of_mem x hy))
      (by rw [hx, ha, min_self])

theorem listMax_const {l : List ℚ} {v : ℚ} (h : l ≠ [])
    (hx : ∀ x ∈ l, x = v) : listMax l = v := by
  cases l with
  | nil => exact absurd rfl h
  | cons x xs =>
    rw [listMax]
    exact foldl_max_const v xs x
      (fun y hy => hx y (List.mem_cons_of_mem x hy))
      (hx x (List.mem_cons_self x xs))

theorem listMin_const {l : List ℚ} {v : ℚ} (h : l ≠ [])
    (hx : ∀ x ∈ l, x = v) : listMin l = v := by
  cases l with
  | nil => exact absurd rfl h
  | cons x xs =>
    rw [listMin]
    exact foldl_min_const v xs x
      (fun y hy => hx y (List.mem_cons_of_mem x hy))
      (hx x (List.mem_cons_self x xs))

/-- C1 counterexample: with no input records every company's raw mean
emissions and trend are 0 — a cohort in which all entities share the same
raw value of both min–max-normalized metrics — yet every emissions score and
every trend score in the output is 0, not 10: the source replaces a zero
range by 1 (`range || 1`) and then `(max - value) / 1 * 10 = 0`. -/
theorem C1_counterexample :
    (∀ r ∈ rawValues ([] : List EsgCompany) ([] : List EsgEntry),
      r.avgEmissions = 0 ∧ r.pctChange = 0) ∧
    (scoredRows ([] : List EsgCompany) ([] : List EsgEntry)).map
        CompanyScore.emissionsScore = List.replicate 8 0 ∧
    (scoredRows ([] : List EsgCompany) ([] : List EsgEntry)).map
        CompanyScore.trendScore = List.replicate 8 0 ∧
    (0 : ℚ) ≠ 10 := by
  refine ⟨?_, ?_, ?_, by norm_num⟩ <;>
    norm_num [rawValues, rawValueFor, companiesList, SECTOR_CONFIG,
      avgEmissionsOf, pctChangeOf, credibilityComponentOf, avgCredScoreOf,
      netZeroTarget, targetYearToScore, scoredRows, scoredPairs, listMin,
      listMax, roundTo1, sortAscBy, sortDescBy, List.insertionSort,
      getCompanySector, entryTotal, max_def, min_def, List.replicate]

/-- C1 (amended): in a cohort in which all entities share the same raw mean
emissions and the same raw trend value (in particular with a single entity,
or with no data at all), the zero range is replaced by 1, so every entity's
emissions score and trend score equal 0 — not 10 as the specification
states. -/
theorem C1_tied_cohort_scores_zero (staticData : List EsgCompany)
    (data : List EsgEntry) (v w : ℚ)
    (hv : ∀ r ∈ rawValues staticData data, r.avgEmissions = v)
    (hw : ∀ r ∈ rawValues staticData data, r.pctChange = w) :
    (scoredRows staticData data).map CompanyScore.emissionsScore =
      List.replicate (scoredRows staticData data).length 0 ∧
    (scoredRows staticData data).map CompanyScore.trendScore =
      List.replicate (scoredRows staticData data).length 0 := by
  have hne : (rawValues staticData data).map RawValue.avgEmissions ≠ [] := by
    simp [rawValues, companiesList, SECTOR_CONFIG]
  have hnc : (rawValues staticData data).map RawValue.pctChange ≠ [] := by
    simp [rawValues, companiesList, SECTOR_CONFIG]
  have hmaxE : listMax ((rawValues staticData data).map RawValue.avgEmissions)
      = v := by
    refine listMax_const hne fun x hx => ?_
    rcases List.mem_map.mp hx with ⟨r, hr, rfl⟩
    exact hv r hr
  have hminE : listMin ((rawValues staticData data).map RawValue.avgEmissions)
      = v := by
    refine listMin_const hne fun x hx => ?_
    rcases List.mem_map.mp hx with ⟨r, hr, rfl⟩
    exact hv r hr
  have hmaxC : listMax ((rawValues staticData data).map RawValue.pctChange)
      = w := by
    refine listMax_const hnc fun x hx => ?_
    rcases List.mem_map.mp hx with ⟨r, hr, rfl⟩
    exact hw r hr
  have hminC : listMin ((rawValues staticData data).map RawValue.pctChange)
      = w := by
    refine listMin_const hnc fun x hx => ?_
    rcases List.mem_map.mp hx with ⟨r, hr, rfl⟩
    exact hw r hr
  have key : ∀ p ∈ scoredPairs staticData data,
      p.2.emissionsScore = 0 ∧ p.2.trendScore = 0 := by
    intro p hp
    rw [scoredPairs] at hp
    rcases List.mem_map.mp hp with ⟨r, hr, rfl⟩
    dsimp only
    rw [hmaxE, hminE, hmaxC, hminC, hv r hr, hw r hr]
    norm_num [roundTo1]
  constructor
  · have hall : ∀ b ∈ (scoredRows staticData data).map
        CompanyScore.emissionsScore, b = (0 : ℚ) := by
      intro b hb
      rcases List.mem_map.mp hb with ⟨row, hrow, rfl⟩
      rw [scoredRows] at hrow
      rcases List.mem_map.mp hrow with ⟨p, hp, rfl⟩
      exact (key p hp).1
    have := List.eq_replicate_of_mem hall
    simpa [List.length_map] using this
  · have hall : ∀ b ∈ (scoredRows staticData data).map
        CompanyScore.trendScore, b = (0 : ℚ) := by
      intro b hb
      rcases List.mem_map.mp hb with ⟨row, hrow, rfl⟩
      rw [scoredRows] at hrow
      rcases List.mem_map.mp hrow with ⟨p, hp, rfl⟩
      exact (key p hp).2
    have := List.eq_replicate_of_mem hall
    simpa [List.length_map] using this

/-- C1 witness: the all-tied cohort obtained from empty inputs. -/
theorem C1_tied_cohort_scores_zero_witness :
    (scoredRows ([] : List EsgCompany) ([] : List EsgEntry)).map
        CompanyScore.emissionsScore =
      List.replicate
        (scoredRows ([] : List EsgCompany) ([] : List EsgEntry)).length 0 ∧
    (scoredRows ([] : List EsgCompany) ([] : List EsgEntry)).map
        CompanyScore.trendScore =
      List.replicate
        (scoredRows ([] : List EsgCompany) ([] : List EsgEntry)).length 0 := by
  refine C1_tied_cohort_scores_zero [] [] 0 0 ?_ ?_ <;>
    (intro r hr;
     rcases List.mem_map.mp hr with ⟨c, hc, rfl⟩;
     norm_num [rawValueFor, avgEmissionsOf, pctChangeOf, sortAscBy,
       List.insertionSort])

/-! ## Claim C6: normalization boundedness -/

/-- A company whose single record carries a credibility assessment with
`credibility_score = 5` — the maximum of the scale declared by the
credibility chart configuration (`max: 5`). -/
def dataC6 : List EsgEntry :=
  [{ company := "BP", reporting_year := 2021, scope1 := some 10,
     scope2_market := none,
     credibility := some { credibility_score := some 5, alignment := 3,
                           realism := 3 },
     targets := [] }]

/-- A static dataset granting BP a net-zero 2060 target. -/
def staticC6 : List EsgCompany :=
  [{ company := "BP",
     years := [{ company := "BP", reporting_year := 2021, scope1 := none,
                 scope2_market := none, credibility := none,
                 targets := [{ description := "Net zero by 2060",
                               target_year := some 2060 }] }] }]

/-- C6: evaluation of the code at the failing input.  The credibility
component — documented in the source as "normalized to 0-10" — evaluates to
20 for a credibility score of 5 (the mapping `((avg - 1) / 2) * 10` fits a
1–3 scale, not the declared 1–5 scale), and the emitted target score
component, its average with the target-year step score, evaluates to 45/4 =
11.25; both exceed the claimed bound of 10. -/
theorem C6_credibility_component_exceeds_bound :
    (rawValueFor staticC6 dataC6 "BP").credibilityComponent = 20 ∧
    (rawValueFor staticC6 dataC6 "BP").targetYearComponent = 5/2 ∧
    (rawValueFor staticC6 dataC6 "BP").credibilityComponent * (1/2) +
      (rawValueFor staticC6 dataC6 "BP").targetYearComponent * (1/2) = 45/4 ∧
    ¬ ((20 : ℚ) ≤ 10) ∧ ¬ ((45 : ℚ)/4 ≤ 10) := by
  have hmatch : netZeroMatch "Net zero by 2060" = true := by decide
  refine ⟨?_, ?_, ?_, by norm_num, by norm_num⟩ <;>
    norm_num [rawValueFor, dataC6, staticC6, credibilityComponentOf,
      avgCredScoreOf, credScoreOf, netZeroTarget, companyNetZero,
      companyNzWithYear, companyNzTargets, companyAllTargets, hmatch,
      sortDescBy, List.insertionSort, List.orderedInsert, targetYearToScore]

/-! ## Claim C8: ranking order -/

/-- C8: the ranked output is sorted by the row's overall score descending,
and for every score value the rows carrying it appear in exactly their
relative order from the cohort-ordered `scored` sequence (stability — no
other tie-break key); the ranked output is a permutation of the scored
rows. -/
theorem C8_ranking_sorted_and_stable (staticData : List EsgCompany)
    (data : List EsgEntry) :
    (rankedRows staticData data).Sorted
      (fun a b => b.overallScore ≤ a.overallScore) ∧
    (∀ v : ℚ,
      (rankedRows staticData data).filter (fun r => r.overallScore = v) =
        (scoredRows staticData data).filter (fun r => r.overallScore = v)) ∧
    (rankedRows staticData data).Perm (scoredRows staticData data) :=
  ⟨sortDescBy_sorted CompanyScore.overallScore _,
   fun v => sortDescBy_filter_key CompanyScore.overallScore v _,
   sortDescBy_perm CompanyScore.overallScore _⟩

/-! ## Claim C10: cohort membership is fixed by the configuration -/

/-- C10: the ranked output's companies are exactly the configured cohort (one
row per configured company, regardless of the data), and inserting a record
whose company is not configured anywhere into the data leaves the ranked
output unchanged. -/
theorem C10_cohort_fixed_by_config (staticData : List EsgCompany)
    (data l1 l2 : List EsgEntry) (e : EsgEntry)
    (he : e.company ∉ companiesList) :
    ((rankedRows staticData data).map CompanyScore.company).Perm
      companiesList ∧
    rankedRows staticData (l1 ++ e :: l2) =
      rankedRows staticData (l1 ++ l2) := by
  constructor
  · have h1 : (scoredRows staticData data).map CompanyScore.company =
        companiesList := rfl
    exact h1 ▸ (sortDescBy_perm CompanyScore.overallScore
      (scoredRows staticData data)).map CompanyScore.company
  · have hfilter : ∀ c ∈ companiesList,
        (l1 ++ e :: l2).filter (fun x => x.company = c) =
          (l1 ++ l2).filter (fun x => x.company = c) := by
      intro c hc
      have hne : ¬ (e.company = c) := fun h => he (h ▸ hc)
      simp [List.filter_append, List.filter_cons, hne]
    have hraw : rawValues staticData (l1 ++ e :: l2) =
        rawValues staticData (l1 ++ l2) := by
      rw [rawValues, rawValues]
      refine List.map_congr_left fun c hc => ?_
      rw [rawValueFor, rawValueFor, hfilter c hc]
    have hscored : scoredRows staticData (l1 ++ e :: l2) =
        scoredRows staticData (l1 ++ l2) := by
      rw [scoredRows, scoredRows, scoredPairs, scoredPairs, hraw]
    rw [rankedRows, rankedRows, hscored]

/-- A record for a company that appears in no sector configuration. -/
def entryOut : EsgEntry :=
  { company := "Zeta Corp", reporting_year := 2020, scope1 := some 1,
    scope2_market := none, credibility := none, targets := [] }

/-- C10 witness: an unconfigured company's record is invisible to the
ranking. -/
theorem C10_cohort_fixed_by_config_witness :
    (((rankedRows ([] : List EsgCompany) ([] : List EsgEntry)).map
        CompanyScore.company).Perm companiesList) ∧
    rankedRows [] ([] ++ entryOut :: []) = rankedRows [] ([] ++ []) :=
  C10_cohort_fixed_by_config [] [] [] [] entryOut (by decide)

/-! ## Claim C9: rounding and its consumers -/

/-- Formalisation of claim C9's ranking: the stable descending sort keyed on
the UNROUNDED post-penalty overall score, which the claim asserts the ranked
output follows. -/
def rankedByUnrounded (staticData : List EsgCompany) (data : List EsgEntry) :
    List String :=
  (sortDescBy Prod.fst (scoredPairs staticData data)).map
    (fun p => p.2.company)

/-- Formalisation of the spec's classifier applied to an unrounded overall,
with the source's thresholds 5.0 and 3.65. -/
def classifyUnrounded (o : ℚ) : String :=
  if 5 ≤ o then "Finance" else if 365/100 ≤ o then "Monitor" else "Avoid"

/-- One record per configured company; the scope1 values are chosen so that
BP's unrounded overall is 1.01 and ENGIE's is 1.04 — distinct, but both
rounding to 1.0. -/
def dataC9 : List EsgEntry :=
  [{ company := "BP", reporting_year := 2020, scope1 := some (99/2),
     scope2_market := none, credibility := none, targets := [] },
   { company := "ENGIE", reporting_year := 2020, scope1 := some 48,
     scope2_market := none, credibility := none, targets := [] },
   { company := "SSE", reporting_year := 2020, scope1 := some 100,
     scope2_market := none, credibility := none, targets := [] },
   { company := "Shell", reporting_year := 2020, scope1 := some 0,
     scope2_market := none, credibility := none, targets := [] },
   { company := "Amazon", reporting_year := 2020, scope1 := some 50,
     scope2_market := none, credibility := none, targets := [] },
   { company := "Intel", reporting_year := 2020, scope1 := some 80,
     scope2_market := none, credibility := none, targets := [] },
   { company := "Coca-Cola", reporting_year := 2020, scope1 := some 90,
     scope2_market := none, credibility := none, targets := [] },
   { company := "Nestle", reporting_year := 2020, scope1 := some 60,
     scope2_market := none, credibility := none, targets := [] }]

/-- C9 counterexample: on `dataC9`, ENGIE's unrounded overall (1.04) exceeds
BP's (1.01), so ranking by unrounded scores puts ENGIE before BP; but the
source sorts the emitted rows by the ROUNDED overall, under which both are
1.0, and the stable sort leaves BP (earlier in the cohort sequence) in
front — the ranking therefore depends on the rounded values, contradicting
the claim that no downstream step does. -/
theorem C9_counterexample :
    (rankedRows ([] : List EsgCompany) dataC9).map CompanyScore.company =
      ["Shell", "BP", "ENGIE", "Nestle", "Amazon", "Intel", "Coca-Cola",
       "SSE"] ∧
    rankedByUnrounded ([] : List EsgCompany) dataC9 =
      ["Shell", "ENGIE", "BP", "Nestle", "Amazon", "Intel", "Coca-Cola",
       "SSE"] ∧
    (rankedRows ([] : List EsgCompany) dataC9).map CompanyScore.company ≠
      rankedByUnrounded ([] : List EsgCompany) dataC9 := by
  have hraw : rawValues ([] : List EsgCompany) dataC9 =
      [{ company := "BP", sector := "Energy & Utilities",
         avgEmissions := 99/2, pctChange := 0, credibilityComponent := 0,
         targetYearComponent := 0 },
       { company := "ENGIE", sector := "Energy & Utilities",
         avgEmissions := 48, pctChange := 0, credibilityComponent := 0,
         targetYearComponent := 0 },
       { company := "SSE", sector := "Energy & Utilities",
         avgEmissions := 100, pctChange := 0, credibilityComponent := 0,
         targetYearComponent := 0 },
       { company := "Shell", sector := "Energy & Utilities",
         avgEmissions := 0, pctChange := 0, credibilityComponent := 0,
         targetYearComponent := 0 },
       { company := "Amazon", sector := "Technology",
         avgEmissions := 50, pctChange := 0, credibilityComponent := 0,
         targetYearComponent := 0 },
       { company := "Intel", sector := "Technology",
         avgEmissions := 80, pctChange := 0, credibilityComponent := 0,
         targetYearComponent := 0 },
       { company := "Coca-Cola", sector := "Consumer Goods",
         avgEmissions := 90, pctChange := 0, credibilityComponent := 0,
         targetYearComponent := 0 },
       { company := "Nestle", sector := "Consumer Goods",
         avgEmissions := 60, pctChange := 0, credibilityComponent := 0,
         targetYearComponent := 0 }] := by
    simp [rawValues, rawValueFor, companiesList, SECTOR_CONFIG,
      getCompanySector, avgEmissionsOf, pctChangeOf, entryTotal,
      credibilityComponentOf, avgCredScoreOf, credScoreOf, netZeroTarget,
      targetYearToScore, sortAscBy, List.insertionSort, List.orderedInsert,
      dataC9]
  have hpairs : scoredPairs ([] : List EsgCompany) dataC9 =
      [(101/100,
        { company := "BP", sector := "Energy & Utilities",
          emissionsScore := 51/10, trendScore := 0, targetScore := 0,
          overallScore := 1, recommendation := "Avoid",
          hasPenalty := false }),
       (26/25,
        { company := "ENGIE", sector := "Energy & Utilities",
          emissionsScore := 26/5, trendScore := 0, targetScore := 0,
          overallScore := 1, recommendation := "Avoid",
          hasPenalty := false }),
       (0,
        { company := "SSE", sector := "Energy & Utilities",
          emissionsScore := 0, trendScore := 0, targetScore := 0,
          overallScore := 0, recommendation := "Avoid",
          hasPenalty := false }),
       (2,
        { company := "Shell", sector := "Energy & Utilities",
          emissionsScore := 10, trendScore := 0, targetScore := 0,
          overallScore := 2, recommendation := "Avoid",
          hasPenalty := false }),
       (1/2,
        { company := "Amazon", sector := "Technology",
          emissionsScore := 5, trendScore := 0, targetScore := 0,
          overallScore := 1/2, recommendation := "Avoid",
          hasPenalty := true }),
       (2/5,
        { company := "Intel", sector := "Technology",
          emissionsScore := 2, trendScore := 0, targetScore := 0,
          overallScore := 2/5, recommendation := "Avoid",
          hasPenalty := false }),
       (1/5,
        { company := "Coca-Cola", sector := "Consumer Goods",
          emissionsScore := 1, trendScore := 0, targetScore := 0,
          overallScore := 1/5, recommendation := "Avoid",
          hasPenalty := false }),
       (4/5,
        { company := "Nestle", sector := "Consumer Goods",
          emissionsScore := 4, trendScore := 0, targetScore := 0,
          overallScore := 4/5, recommendation := "Avoid",
          hasPenalty := false })] := by
    have hb1 : ¬ (("BP" : String) = "Amazon") := by decide
    have hb2 : ¬ (("ENGIE" : String) = "Amazon") := by decide
    have hb3 : ¬ (("SSE" : String) = "Amazon") := by decide
    have hb4 : ¬ (("Shell" : String) = "Amazon") := by decide
    have hb6 : ¬ (("Intel" : String) = "Amazon") := by decide
    have hb7 : ¬ (("Coca-Cola" : String) = "Amazon") := by decide
    have hb8 : ¬ (("Nestle" : String) = "Amazon") := by decide
    rw [scoredPairs, hraw]
    norm_num [listMin, listMax, roundTo1, max_def, min_def,
      hb1, hb2, hb3, hb4, hb6, hb7, hb8]
  have h1 : (rankedRows ([] : List EsgCompany) dataC9).map
      CompanyScore.company =
      ["Shell", "BP", "ENGIE", "Nestle", "Amazon", "Intel", "Coca-Cola",
       "SSE"] := by
    rw [rankedRows, scoredRows, hpairs]
    norm_num [sortDescBy, List.insertionSort, List.orderedInsert]
  have h2 : rankedByUnrounded ([] : List EsgCompany) dataC9 =
      ["Shell", "ENGIE", "BP", "Nestle", "Amazon", "Intel", "Coca-Cola",
       "SSE"] := by
    rw [rankedByUnrounded, hpairs]
    norm_num [sortDescBy, List.insertionSort, List.orderedInsert]
  exact ⟨h1, h2, by rw [h1, h2]; decide⟩

/-- C9 (amended): the recommendation tier of every entity is determined by
comparing the UNROUNDED post-penalty overall against the thresholds (rounding
does not feed into classification), and every emitted overall is exactly the
one-decimal rounding of the unrounded value; but the ranker sorts the emitted
rows by that ROUNDED overall, so entities distinguishable only before
rounding tie in the ranking and fall back to their cohort order. -/
theorem C9_tier_from_unrounded (staticData : List EsgCompany)
    (data : List EsgEntry) :
    ((scoredPairs staticData data).all
      (fun p => p.2.overallScore = roundTo1 p.1 &&
        p.2.recommendation = classifyUnrounded p.1)) = true ∧
    rankedRows staticData data =
      sortDescBy CompanyScore.overallScore (scoredRows staticData data) := by
  refine ⟨?_, rfl⟩
  rw [List.all_eq_true]
  intro p hp
  rw [scoredPairs] at hp
  rcases List.mem_map.mp hp with ⟨r, hr, rfl⟩
  simp [classifyUnrounded]

end EsgHub
